import Mathlib

/-!
Shallow embedding of the Legasi lending protocol (Solana/Anchor programs
`legasi-core`, `legasi-lending`, `legasi-gad`, `legasi-lp`, `legasi-credit`).

Machine integers are modelled as `Nat` with explicit `% 2^w` where a Rust
cast (`as u64`, `as u32`) can truncate, `saturating_*` operations as
clamped arithmetic, and `checked_*` operations as `Option`/`Except`.
Timestamps (`i64`) are modelled as `Int`.
-/

/-- 2^32, the size of the u32 value space. -/
def U32 : Nat := 4294967296

/-- 2^64, the size of the u64 value space. -/
def U64 : Nat := 18446744073709551616

/-- 2^128, the size of the u128 value space. -/
def U128 : Nat := 340282366920938463463374607431768211456

/-- Truncating cast to u32 (`as u32` on a wider value). -/
def u32Mod (x : Nat) : Nat := x % U32

/-- Truncating cast to u64 (`as u64` on a u128 value). -/
def u64Mod (x : Nat) : Nat := x % U64

/-- u32 `saturating_add`. -/
def satAdd32 (a b : Nat) : Nat := min (a + b) (U32 - 1)

/-- u64 `saturating_add`. -/
def satAdd64 (a b : Nat) : Nat := min (a + b) (U64 - 1)

/-- u64 `checked_add`. -/
def checkedAdd64 (a b : Nat) : Option Nat := if a + b < U64 then some (a + b) else none

/-- u64 `checked_mul`. -/
def checkedMul64 (a b : Nat) : Option Nat := if a * b < U64 then some (a * b) else none

/-- u128 `checked_mul`. -/
def checkedMul128 (a b : Nat) : Option Nat := if a * b < U128 then some (a * b) else none

/-- u128 `checked_mul` followed by `unwrap_or(0)`. -/
def mul128OrZero (a b : Nat) : Nat := if a * b < U128 then a * b else 0

/-- u64 `checked_mul` followed by `unwrap_or(0)`. -/
def mulOrZero64 (a b : Nat) : Nat := if a * b < U64 then a * b else 0

/-- i64 `saturating_sub`. -/
def i64SatSub (a b : Int) : Int := max (-(2 ^ 63)) (min (2 ^ 63 - 1) (a - b))

/-- i64 `checked_sub`. -/
def i64CheckedSub (a b : Int) : Option Int :=
  if -(2 ^ 63) ≤ a - b ∧ a - b ≤ 2 ^ 63 - 1 then some (a - b) else none

/-- Convert an `Option` into `Except`, mapping `none` to the given error
(Rust `ok_or(err)?`). -/
def okOr {ε : Type} (o : Option Nat) (e : ε) : Except ε Nat :=
  match o with
  | some v => Except.ok v
  | none => Except.error e

/-- Error codes of `legasi-core/src/errors.rs` (shared by lending, gad, lp). -/
inductive LegasiError where
  | InvalidAmount
  | MathOverflow
  | ExceedsLTV
  | InsufficientCollateral
  | InsufficientLiquidity
  | AssetNotActive
  | PositionNotFound
  | GadDisabled
  | NoDebtToDeleverage
  | LtvBelowGadThreshold
  | CrankTooSoon
  | NothingToLiquidate
  | NoLpShares
  | StalePriceFeed
  | InvalidOracle
  | MaxCollateralTypesReached
  | MaxBorrowTypesReached
  deriving DecidableEq

/-- Asset types of `legasi-core/src/state.rs`. -/
inductive AssetType where
  | SOL
  | CbBTC
  | USDC
  | EURC
  deriving DecidableEq

-- Constants from legasi-core/src/constants.rs
def BPS_DENOMINATOR : Nat := 10000
def LAMPORTS_PER_SOL : Nat := 1000000000
def DEFAULT_SOL_MAX_LTV_BPS : Nat := 7500
def MIN_GAD_CRANK_INTERVAL : Int := 3600
def SECONDS_PER_DAY : Nat := 86400
def INSURANCE_FEE_BPS : Nat := 500
def CRANKER_REWARD_BPS : Nat := 50
def PRICE_STALENESS_THRESHOLD : Int := 300
def MAX_COLLATERAL_TYPES : Nat := 8
def MAX_BORROW_TYPES : Nat := 4

-- Constants from legasi-core/src/pyth.rs
def MAX_PRICE_AGE : Int := 60
def MAX_CONFIDENCE_BPS : Nat := 500

/-- On-chain reputation record (`legasi-core/src/state.rs`, identical copy in
`legasi-lending/src/lib.rs`).  `successful_repayments`, `gad_events` and
`account_age_days` are u32 fields, `total_repaid_usd` is u64. -/
structure Reputation where
  successful_repayments : Nat
  total_repaid_usd : Nat
  gad_events : Nat
  account_age_days : Nat
  deriving DecidableEq

/-- `Reputation::get_score`.  The Rust multiplications
`successful_repayments * 50` and `gad_events * 100` are plain u32
multiplications, hence truncate modulo 2^32; `10 * (account_age_days / 30)`
stays below 2^32 for u32 inputs but the cast is kept for fidelity. -/
def Reputation.get_score (r : Reputation) : Nat :=
  let base := min (u32Mod (r.successful_repayments * 50)) 500
  let age_bonus := min (u32Mod (r.account_age_days / 30 * 10)) 100
  satAdd32 base age_bonus - u32Mod (r.gad_events * 100)

/-- The LTV-bonus step function used by `Reputation::get_ltv_bonus_bps`. -/
def ltvBonusOfScore (s : Nat) : Nat :=
  if 400 ≤ s then 500 else if 200 ≤ s then 300 else if 100 ≤ s then 100 else 0

/-- `Reputation::get_ltv_bonus_bps`. -/
def Reputation.get_ltv_bonus_bps (r : Reputation) : Nat :=
  ltvBonusOfScore r.get_score

/-- `saturating_add` below the u32 bound is plain addition. -/
theorem satAdd32_eq (a b : Nat) (h : a + b < U32) : satAdd32 a b = a + b := by
  unfold satAdd32; omega

/-- `saturating_add` below the u64 bound is plain addition. -/
theorem satAdd64_eq (a b : Nat) (h : a + b < U64) : satAdd64 a b = a + b := by
  unfold satAdd64; omega

namespace Gad

/-- `get_gad_rate_bps` from `legasi-gad/src/lib.rs`: quadratic GAD rate curve.
The Rust code computes `excess^2` as u128, divides by 100 and then casts the
quotient to u64 (`as u64`, i.e. truncation modulo 2^64) before taking
`min(rate, 1000)`. -/
def get_gad_rate_bps (current_ltv_bps max_ltv_bps : Nat) : Nat :=
  if current_ltv_bps ≤ max_ltv_bps then 0
  else
    let excess_bps := current_ltv_bps - max_ltv_bps
    let rate := u64Mod (excess_bps ^ 2 / 100)
    min rate 1000

end Gad

-- ======================== C5 ========================

/-- C5 counterexample: the claim states the GAD rate is
`min(1000, excess^2 / 100)` for ALL u64 inputs.  At
`current_ltv_bps = 42949680460`, `max_ltv_bps = 7500` the excess is
`42949672960 = 10·2^32`, so `excess^2 / 100 = 2^64` truncates to `0` in the
`as u64` cast and the code returns `0`, while the claimed formula yields the
`1000` cap. -/
theorem c5_rate_truncation_counterexample :
    Gad.get_gad_rate_bps 42949680460 7500 = 0 ∧
    min 1000 ((42949680460 - 7500) ^ 2 / 100) = 1000 := by
  constructor
  · decide
  · decide

/-- C5 (amended): whenever the excess is at most 42949672959 bps (so that
`excess^2 / 100` fits in u64 and the truncating cast is the identity), the GAD
rate equals `min(1000, excess^2 / 100)`, and in particular is 0 whenever
`current_ltv_bps ≤ max_ltv_bps`. -/
theorem c5_gad_rate_formula (cur mx : Nat) (h : cur - mx < 42949672960) :
    Gad.get_gad_rate_bps cur mx =
      if cur ≤ mx then 0 else min 1000 ((cur - mx) ^ 2 / 100) := by
  unfold Gad.get_gad_rate_bps
  split
  · rfl
  · have hsq : (cur - mx) ^ 2 / 100 < U64 := by
      have h1 : (cur - mx) ^ 2 < 100 * U64 := by
        have h2 : (cur - mx) ^ 2 ≤ 42949672959 ^ 2 := by
          exact Nat.pow_le_pow_left (by omega) 2
        calc (cur - mx) ^ 2 ≤ 42949672959 ^ 2 := h2
          _ < 100 * U64 := by decide
      omega
    simp only [u64Mod]
    rw [Nat.mod_eq_of_lt hsq, Nat.min_comm]

/-- C5 amended witness: the spec example, LTV 9000 bps against max 7500 bps,
excess 1500 bps, rate capped at 1000 bps/day. -/
theorem c5_gad_rate_formula_witness :
    (9000 - 7500 < 42949672960) ∧
    Gad.get_gad_rate_bps 9000 7500 =
      (if 9000 ≤ 7500 then 0 else min 1000 ((9000 - 7500) ^ 2 / 100)) ∧
    Gad.get_gad_rate_bps 9000 7500 = 1000 :=
  ⟨by decide, c5_gad_rate_formula 9000 7500 (by decide), by decide⟩

-- ======================== C8 ========================

/-- C8 counterexample: the claim quantifies over ALL u32 field values, but
`successful_repayments * 50` is a plain (wrapping) u32 multiplication.  At
`successful_repayments = 85899346` the product `4294967300` wraps to `4`
modulo 2^32, so the code's score is `min(4,500) = 4`, while the claimed
formula gives `min(85899346·50, 500) = 500`. -/
theorem c8_score_wrap_counterexample :
    Reputation.get_score ⟨85899346, 0, 0, 0⟩ = 4 ∧
    min (85899346 * 50) 500 + min (0 / 30 * 10) 100 - 0 * 100 = 500 := by
  constructor
  · decide
  · decide

/-- C8 (amended): for u32 field values whose products `successful_repayments
× 50` and `gad_events × 100` do not wrap modulo 2^32, the reputation score is
`min(sr × 50, 500) + min(age/30 × 10, 100) − gad_events × 100`, truncated at
zero; and the LTV bonus is the step function of the score (≥400 → 500 bps,
≥200 → 300, ≥100 → 100, else 0), which is monotone in the score. -/
theorem c8_reputation_score (r : Reputation)
    (h1 : r.successful_repayments * 50 < U32)
    (h2 : r.gad_events * 100 < U32)
    (h3 : r.account_age_days < U32) :
    Reputation.get_score r =
      min (r.successful_repayments * 50) 500 +
        min (r.account_age_days / 30 * 10) 100 - r.gad_events * 100 ∧
    Reputation.get_ltv_bonus_bps r = ltvBonusOfScore (Reputation.get_score r) ∧
    (∀ s t : Nat, s ≤ t → ltvBonusOfScore s ≤ ltvBonusOfScore t) := by
  refine ⟨?_, rfl, ?_⟩
  · unfold Reputation.get_score
    have hage : r.account_age_days / 30 * 10 < U32 := by
      have hd : r.account_age_days / 30 ≤ 143165576 := by
        have : r.account_age_days ≤ U32 - 1 := by omega
        calc r.account_age_days / 30 ≤ (U32 - 1) / 30 := Nat.div_le_div_right this
          _ = 143165576 := by decide
      omega
    simp only [u32Mod, satAdd32]
    rw [Nat.mod_eq_of_lt h1, Nat.mod_eq_of_lt h2, Nat.mod_eq_of_lt hage]
    have hb : min (r.successful_repayments * 50) 500 ≤ 500 := Nat.min_le_right _ _
    have ha : min (r.account_age_days / 30 * 10) 100 ≤ 100 := Nat.min_le_right _ _
    have hU : (600 : Nat) ≤ U32 - 1 := by decide
    have : min (r.successful_repayments * 50) 500 +
        min (r.account_age_days / 30 * 10) 100 ≤ U32 - 1 := by omega
    rw [Nat.min_eq_left this]
  · intro s t hst
    unfold ltvBonusOfScore
    split_ifs <;> omega

/-- C8 amended witness: 10 repayments, 400 days of age, one GAD event gives
score 500 and LTV bonus 500 bps. -/
theorem c8_reputation_score_witness :
    (10 * 50 < U32 ∧ 1 * 100 < U32 ∧ 400 < U32) ∧
    Reputation.get_score ⟨10, 0, 1, 400⟩ =
      min (10 * 50) 500 + min (400 / 30 * 10) 100 - 1 * 100 ∧
    Reputation.get_ltv_bonus_bps ⟨10, 0, 1, 400⟩ = 500 :=
  ⟨by refine ⟨by decide, by decide, by decide⟩,
   (c8_reputation_score ⟨10, 0, 1, 400⟩ (by decide) (by decide) (by decide)).1,
   by decide⟩

-- ======================== legasi-lending ========================

namespace Lending

/-- Single collateral deposit entry. -/
structure CollateralDeposit where
  asset_type : AssetType
  amount : Nat
  deriving DecidableEq

/-- Single borrow entry. -/
structure BorrowedAmount where
  asset_type : AssetType
  amount : Nat
  accrued_interest : Nat
  deriving DecidableEq

/-- User lending position (`legasi-lending/src/lib.rs`; the owner pubkey and
PDA bump are irrelevant to the embedded logic and omitted). -/
structure Position where
  collaterals : List CollateralDeposit
  borrows : List BorrowedAmount
  last_update : Int
  last_gad_crank : Int
  gad_enabled : Bool
  total_gad_liquidated_usd : Nat
  reputation : Reputation
  deriving DecidableEq

/-- Price feed account (`legasi-core/src/state.rs`). -/
structure PriceFeed where
  price_usd_6dec : Nat
  last_update : Int
  confidence : Nat
  deriving DecidableEq

/-- Borrowable asset config (the fields `borrow` reads). -/
structure Borrowable where
  is_active : Bool
  asset_type : AssetType
  deriving DecidableEq

/-- The collateral-valuation loop of `borrow` (lines 282-294): SOL and cbBTC
entries are valued at `amount × sol_price / LAMPORTS_PER_SOL` (u128
`checked_mul`/`checked_div`, `as u64` cast) and summed with u64
`checked_add`.  (Note the source prices cbBTC with the SOL feed too.) -/
def sumCollateralUsd (price : Nat) : List CollateralDeposit → Nat → Except LegasiError Nat
  | [], acc => Except.ok acc
  | d :: rest, acc =>
    if d.asset_type = AssetType.SOL ∨ d.asset_type = AssetType.CbBTC then
      match checkedMul128 d.amount price with
      | none => Except.error LegasiError.MathOverflow
      | some v0 =>
        match checkedAdd64 acc (u64Mod (v0 / LAMPORTS_PER_SOL)) with
        | none => Except.error LegasiError.MathOverflow
        | some acc2 => sumCollateralUsd price rest acc2
    else sumCollateralUsd price rest acc

/-- The borrow-valuation loop of `borrow` (lines 297-306): each entry
contributes `amount + accrued_interest`, all via u64 `checked_add`. -/
def sumBorrowUsd : List BorrowedAmount → Nat → Except LegasiError Nat
  | [], acc => Except.ok acc
  | b :: rest, acc =>
    match checkedAdd64 b.amount b.accrued_interest with
    | none => Except.error LegasiError.MathOverflow
    | some v =>
      match checkedAdd64 acc v with
      | none => Except.error LegasiError.MathOverflow
      | some acc2 => sumBorrowUsd rest acc2

/-- The find-and-update loop over borrow entries in `borrow` (lines 345-355):
adds `amount` to the first entry of the given asset with `checked_add`;
returns the updated list and whether a match was found. -/
def borrowUpdateLoop (asset : AssetType) (amount : Nat) :
    List BorrowedAmount → Except LegasiError (List BorrowedAmount × Bool)
  | [] => Except.ok ([], false)
  | b :: rest =>
    if b.asset_type = asset then
      match checkedAdd64 b.amount amount with
      | none => Except.error LegasiError.MathOverflow
      | some na => Except.ok ({ b with amount := na } :: rest, true)
    else
      match borrowUpdateLoop asset amount rest with
      | Except.error e => Except.error e
      | Except.ok (r, f) => Except.ok (b :: r, f)

/-- `borrow` from `legasi-lending/src/lib.rs` (lines 267-372).  Note that the
price feed's `last_update` and the clock `now` are arguments, and the feed's
age is never examined. -/
def borrow (pos : Position) (cfg : Borrowable) (vault_amount : Nat)
    (sol_price_feed : PriceFeed) (amount : Nat) (now : Int) :
    Except LegasiError Position :=
  if amount = 0 then Except.error LegasiError.InvalidAmount
  else if cfg.is_active = false then Except.error LegasiError.AssetNotActive
  else if vault_amount < amount then Except.error LegasiError.InsufficientLiquidity
  else
    match sumCollateralUsd sol_price_feed.price_usd_6dec pos.collaterals 0 with
    | Except.error e => Except.error e
    | Except.ok total_collateral_usd =>
      match sumBorrowUsd pos.borrows 0 with
      | Except.error e => Except.error e
      | Except.ok current_borrow_usd =>
        match checkedAdd64 current_borrow_usd amount with
        | none => Except.error LegasiError.MathOverflow
        | some new_borrow_usd =>
          let effective_max_ltv :=
            satAdd64 DEFAULT_SOL_MAX_LTV_BPS pos.reputation.get_ltv_bonus_bps
          match checkedMul64 total_collateral_usd effective_max_ltv with
          | none => Except.error LegasiError.MathOverflow
          | some m =>
            let max_borrow := m / BPS_DENOMINATOR
            if max_borrow < new_borrow_usd then Except.error LegasiError.ExceedsLTV
            else
              match borrowUpdateLoop cfg.asset_type amount pos.borrows with
              | Except.error e => Except.error e
              | Except.ok (bs, found) =>
                if found then
                  Except.ok { pos with borrows := bs, last_update := now }
                else if pos.borrows.length < MAX_BORROW_TYPES then
                  Except.ok { pos with
                    borrows := pos.borrows ++ [⟨cfg.asset_type, amount, 0⟩],
                    last_update := now }
                else Except.error LegasiError.MaxBorrowTypesReached

/-- The owed-lookup loop of `repay` (lines 381-390): total owed of the first
entry matching the asset, 0 if none. -/
def findOwed (asset : AssetType) : List BorrowedAmount → Except LegasiError Nat
  | [] => Except.ok 0
  | b :: rest =>
    if b.asset_type = asset then okOr (checkedAdd64 b.amount b.accrued_interest) LegasiError.MathOverflow
    else findOwed asset rest

/-- The update loop of `repay` (lines 410-418): pays interest first, then
principal, on the first entry matching the asset. -/
def applyRepayLoop (asset : AssetType) (repay_amount : Nat) :
    List BorrowedAmount → List BorrowedAmount
  | [] => []
  | b :: rest =>
    if b.asset_type = asset then
      let interest_payment := min repay_amount b.accrued_interest
      let principal := repay_amount - interest_payment
      { b with accrued_interest := b.accrued_interest - interest_payment,
               amount := b.amount - principal } :: rest
    else b :: applyRepayLoop asset repay_amount rest

/-- The retain predicate pruning settled borrow entries (line 423). -/
def keepBorrow (b : BorrowedAmount) : Bool :=
  decide (0 < b.amount) || decide (0 < b.accrued_interest)

/-- `repay` from `legasi-lending/src/lib.rs` (lines 375-435). -/
def repay (pos : Position) (cfg : Borrowable) (amount : Nat) (now : Int) :
    Except LegasiError Position :=
  if amount = 0 then Except.error LegasiError.InvalidAmount
  else
    match findOwed cfg.asset_type pos.borrows with
    | Except.error e => Except.error e
    | Except.ok total_owed =>
      if total_owed = 0 then Except.error LegasiError.PositionNotFound
      else
        let repay_amount := min amount total_owed
        Except.ok { pos with
          borrows := (applyRepayLoop cfg.asset_type repay_amount pos.borrows).filter keepBorrow,
          reputation := { pos.reputation with
            successful_repayments := satAdd32 pos.reputation.successful_repayments 1,
            total_repaid_usd := satAdd64 pos.reputation.total_repaid_usd repay_amount },
          last_update := now }

/-- Hard-coded annual rates of `accrue_position_interest` (lines 532-536). -/
def rateForAsset (a : AssetType) : Nat :=
  match a with
  | AssetType.USDC => 800
  | AssetType.EURC => 700
  | _ => 0

/-- Seconds per year used by `accrue_position_interest` (365.25 days). -/
def seconds_per_year : Nat := 31557600

/-- Interest accrual for one borrow entry (lines 530-556): skipped when the
rate or the principal is zero, otherwise
`principal × rate × elapsed / seconds_per_year / 10000` in u128 arithmetic
(`checked_mul` with `unwrap_or(0)`), cast to u64 and added saturating. -/
def accrueEntry (elapsed : Nat) (b : BorrowedAmount) : BorrowedAmount :=
  let annual_rate_bps := rateForAsset b.asset_type
  if annual_rate_bps = 0 ∨ b.amount = 0 then b
  else
    let interest := u64Mod (mul128OrZero (mul128OrZero b.amount annual_rate_bps) elapsed
      / seconds_per_year / BPS_DENOMINATOR)
    { b with accrued_interest := satAdd64 b.accrued_interest interest }

/-- `accrue_position_interest` from `legasi-lending/src/lib.rs`
(lines 520-562).  Always returns `Ok`; an elapsed time under one hour is a
successful no-op. -/
def accrue_position_interest (pos : Position) (now : Int) : Position :=
  let elapsed := i64SatSub now pos.last_update
  if elapsed < 3600 then pos
  else { pos with
    borrows := pos.borrows.map (accrueEntry elapsed.toNat),
    last_update := now }

end Lending

namespace Core

/-- Parsed Pyth price data (`legasi-core/src/pyth.rs`). -/
structure PythPrice where
  price : Int
  conf : Nat
  expo : Int
  publish_time : Int
  deriving DecidableEq

/-- `PythPrice::is_stale`. -/
def PythPrice.is_stale (p : PythPrice) (current_time max_age_seconds : Int) : Bool :=
  decide (max_age_seconds < current_time - p.publish_time)

/-- `PythPrice::confidence_bps`. -/
def PythPrice.confidence_bps (p : PythPrice) : Nat :=
  if p.price ≤ 0 then 10000 else u64Mod (p.conf * 10000 / p.price.toNat)

/-- `PythPrice::to_usd_6dec`: rescale the raw price to 6 decimals, truncating;
u128 `checked_mul`/`checked_div` with `unwrap_or(0)`, final `as u64` cast. -/
def PythPrice.to_usd_6dec (p : PythPrice) : Nat :=
  if p.price ≤ 0 then 0
  else
    let price := p.price.toNat
    let adjustment : Int := 6 - (-p.expo)
    if 0 < adjustment then u64Mod (mul128OrZero price (10 ^ adjustment.toNat))
    else if adjustment < 0 then u64Mod (price / 10 ^ (-adjustment).toNat)
    else u64Mod price

/-- `sync_pyth_price` from `legasi-core/src/lib.rs` (lines 119-149), after the
account data has been parsed into a `PythPrice`: rejects a publish time older
than `MAX_PRICE_AGE` (60 s) and a confidence worse than 500 bps, then updates
the protocol price feed. -/
def sync_pyth_price (pyth : PythPrice) (feed : Lending.PriceFeed) (now : Int) :
    Except LegasiError Lending.PriceFeed :=
  if pyth.is_stale now MAX_PRICE_AGE then Except.error LegasiError.StalePriceFeed
  else if MAX_CONFIDENCE_BPS < pyth.confidence_bps then Except.error LegasiError.InvalidOracle
  else Except.ok { feed with
    price_usd_6dec := pyth.to_usd_6dec,
    confidence := pyth.conf,
    last_update := now }

end Core

-- ======================== C3 ========================

/-- `findOwed` skips entries of other assets and reads the first match. -/
theorem findOwed_append (asset : AssetType) (pre post : List Lending.BorrowedAmount)
    (P I : Nat) (hpre : ∀ e ∈ pre, e.asset_type ≠ asset) :
    Lending.findOwed asset (pre ++ ⟨asset, P, I⟩ :: post) =
      okOr (checkedAdd64 P I) LegasiError.MathOverflow := by
  induction pre with
  | nil => simp [Lending.findOwed]
  | cons e rest ih =>
    have he : e.asset_type ≠ asset := hpre e (List.mem_cons_self e rest)
    simp only [List.cons_append, Lending.findOwed, if_neg he]
    exact ih (fun x hx => hpre x (List.mem_cons_of_mem e hx))

/-- `applyRepayLoop` skips entries of other assets and updates the first
match, interest first. -/
theorem applyRepayLoop_append (asset : AssetType) (pre post : List Lending.BorrowedAmount)
    (P I A : Nat) (hpre : ∀ e ∈ pre, e.asset_type ≠ asset) :
    Lending.applyRepayLoop asset A (pre ++ ⟨asset, P, I⟩ :: post) =
      pre ++ ⟨asset, P - (A - min A I), I - min A I⟩ :: post := by
  induction pre with
  | nil => simp [Lending.applyRepayLoop]
  | cons e rest ih =>
    have he : e.asset_type ≠ asset := hpre e (List.mem_cons_self e rest)
    simp only [List.cons_append, Lending.applyRepayLoop, if_neg he, List.cons.injEq, true_and]
    exact ih (fun x hx => hpre x (List.mem_cons_of_mem e hx))

/-- C3 (confirmed): for a repay of `amount > 0` against a position holding a
borrow entry `(P, I)` for the asset with `I + P > 0` (and the u32/u64
counters not at their saturation bounds), the effective repaid amount is
`A = min(amount, I + P)`, the entry becomes `(P − (A ∸ I), I ∸ A)`
(interest-first amortization, subtraction truncated at zero), the entry
survives the pruning pass exactly when principal or interest is nonzero, and
`successful_repayments` rises by 1 and `total_repaid_usd` by `A`. -/
theorem c3_repay_interest_first (pos : Lending.Position) (cfg : Lending.Borrowable)
    (amount : Nat) (now : Int) (pre post : List Lending.BorrowedAmount) (P I : Nat)
    (hsplit : pos.borrows = pre ++ ⟨cfg.asset_type, P, I⟩ :: post)
    (hpre : ∀ e ∈ pre, e.asset_type ≠ cfg.asset_type)
    (hamt : 0 < amount) (howed : 0 < I + P) (hfit : P + I < U64)
    (hsr : pos.reputation.successful_repayments + 1 < U32)
    (htr : pos.reputation.total_repaid_usd + min amount (P + I) < U64) :
    Lending.repay pos cfg amount now = Except.ok { pos with
      borrows := (pre ++ ⟨cfg.asset_type, P - (min amount (P + I) - I),
          I - min amount (P + I)⟩ :: post).filter Lending.keepBorrow,
      reputation := { pos.reputation with
        successful_repayments := pos.reputation.successful_repayments + 1,
        total_repaid_usd := pos.reputation.total_repaid_usd + min amount (P + I) },
      last_update := now } ∧
    ((⟨cfg.asset_type, P - (min amount (P + I) - I), I - min amount (P + I)⟩ :
        Lending.BorrowedAmount) ∈
        (pre ++ ⟨cfg.asset_type, P - (min amount (P + I) - I),
          I - min amount (P + I)⟩ :: post).filter Lending.keepBorrow ↔
      ¬(P - (min amount (P + I) - I) = 0 ∧ I - min amount (P + I) = 0)) := by
  constructor
  · have h1 : I - min (min amount (P + I)) I = I - min amount (P + I) := by omega
    have h2 : P - (min amount (P + I) - min (min amount (P + I)) I) =
        P - (min amount (P + I) - I) := by omega
    have h3 := satAdd32_eq pos.reputation.successful_repayments 1 hsr
    have h4 := satAdd64_eq pos.reputation.total_repaid_usd (min amount (P + I)) htr
    have hca : checkedAdd64 P I = some (P + I) := by
      unfold checkedAdd64; rw [if_pos hfit]
    unfold Lending.repay
    rw [if_neg (by omega), hsplit,
      findOwed_append cfg.asset_type pre post P I hpre, hca]
    simp only [okOr]
    rw [if_neg (by omega)]
    rw [applyRepayLoop_append cfg.asset_type pre post P I (min amount (P + I)) hpre]
    rw [h1, h2, h3, h4]
  · constructor
    · intro hmem
      have := (List.mem_filter.mp hmem).2
      unfold Lending.keepBorrow at this
      intro hz
      rw [hz.1, hz.2] at this
      simp at this
    · intro hnz
      refine List.mem_filter.mpr ⟨?_, ?_⟩
      · exact List.mem_append_right pre (List.mem_cons_self _ _)
      · unfold Lending.keepBorrow
        simp only [Bool.or_eq_true, decide_eq_true_eq]
        omega

/-- C3 witness: repaying 600 against a USDC borrow with principal 1000 and
accrued interest 50 clears the interest and reduces the principal to 450. -/
theorem c3_repay_interest_first_witness :
    (0 < 600 ∧ 0 < 50 + 1000 ∧ 1000 + 50 < U64 ∧ 2 + 1 < U32 ∧ 500 + min 600 (1000 + 50) < U64) ∧
    Lending.repay
        (⟨[], [⟨AssetType.USDC, 1000, 50⟩], 0, 0, true, 0, ⟨2, 500, 0, 0⟩⟩ : Lending.Position)
        (⟨true, AssetType.USDC⟩ : Lending.Borrowable) 600 7 = Except.ok
      { collaterals := [], borrows := ([] ++ (⟨AssetType.USDC, 1000 - (min 600 (1000 + 50) - 50),
          50 - min 600 (1000 + 50)⟩ : Lending.BorrowedAmount) :: []).filter Lending.keepBorrow,
        last_update := 7, last_gad_crank := 0, gad_enabled := true,
        total_gad_liquidated_usd := 0,
        reputation := ⟨2 + 1, 500 + min 600 (1000 + 50), 0, 0⟩ } :=
  ⟨⟨by decide, by decide, by decide, by decide, by decide⟩,
   (c3_repay_interest_first
      (⟨[], [⟨AssetType.USDC, 1000, 50⟩], 0, 0, true, 0, ⟨2, 500, 0, 0⟩⟩ : Lending.Position)
      (⟨true, AssetType.USDC⟩ : Lending.Borrowable) 600 7 [] [] 1000 50 rfl
      (fun e he => absurd he (List.not_mem_nil e))
      (by decide) (by decide) (by decide) (by decide) (by decide)).1⟩

-- ======================== C9 ========================

/-- The accrual formula of the claim for one borrow entry: interest grows by
`principal × annual_rate_bps × Δt / (seconds_per_year × 10000)`, truncated. -/
def claimedAccrual (elapsed : Nat) (b : Lending.BorrowedAmount) : Lending.BorrowedAmount :=
  { b with accrued_interest := b.accrued_interest +
      b.amount * Lending.rateForAsset b.asset_type * elapsed /
        (Lending.seconds_per_year * BPS_DENOMINATOR) }

/-- One entry of the accrual loop matches the claimed formula when the
128-bit products and the 64-bit results are in range. -/
theorem accrueEntry_eq_claimed (elapsed : Nat) (b : Lending.BorrowedAmount)
    (hel : 0 < elapsed)
    (h128 : b.amount * Lending.rateForAsset b.asset_type * elapsed < U128)
    (h64 : b.amount * Lending.rateForAsset b.asset_type * elapsed /
        (Lending.seconds_per_year * BPS_DENOMINATOR) < U64)
    (hacc : b.accrued_interest + b.amount * Lending.rateForAsset b.asset_type * elapsed /
        (Lending.seconds_per_year * BPS_DENOMINATOR) < U64) :
    Lending.accrueEntry elapsed b = claimedAccrual elapsed b := by
  simp only [Lending.accrueEntry, claimedAccrual]
  split
  · next hz =>
    have hzero : b.amount * Lending.rateForAsset b.asset_type * elapsed = 0 := by
      rcases hz with hz | hz <;> rw [hz] <;> ring
    rw [hzero]
    rfl
  · next hz =>
    have hr1 : b.amount * Lending.rateForAsset b.asset_type < U128 :=
      calc b.amount * Lending.rateForAsset b.asset_type
          ≤ b.amount * Lending.rateForAsset b.asset_type * elapsed :=
            Nat.le_mul_of_pos_right _ hel
        _ < U128 := h128
    have e1 : mul128OrZero b.amount (Lending.rateForAsset b.asset_type) =
        b.amount * Lending.rateForAsset b.asset_type := by
      unfold mul128OrZero; rw [if_pos hr1]
    have e2 : mul128OrZero (b.amount * Lending.rateForAsset b.asset_type) elapsed =
        b.amount * Lending.rateForAsset b.asset_type * elapsed := by
      unfold mul128OrZero; rw [if_pos h128]
    rw [e1, e2, Nat.div_div_eq_div_mul]
    have e3 : u64Mod (b.amount * Lending.rateForAsset b.asset_type * elapsed /
        (Lending.seconds_per_year * BPS_DENOMINATOR)) =
        b.amount * Lending.rateForAsset b.asset_type * elapsed /
          (Lending.seconds_per_year * BPS_DENOMINATOR) := by
      unfold u64Mod; exact Nat.mod_eq_of_lt h64
    rw [e3, satAdd64_eq _ _ hacc]

/-- Interest accrual on an entry never lowers the accrued interest (given an
in-range current value, as all u64 fields are). -/
theorem accrueEntry_mono (elapsed : Nat) (b : Lending.BorrowedAmount)
    (h : b.accrued_interest < U64) :
    b.accrued_interest ≤ (Lending.accrueEntry elapsed b).accrued_interest := by
  simp only [Lending.accrueEntry]
  split
  · exact Nat.le_refl _
  · simp only [satAdd64]
    omega

/-- C9 (confirmed): a call to `accrue_position_interest` with less than one
hour elapsed is a successful no-op; otherwise each borrow entry's accrued
interest grows by exactly `⌊principal × annual_rate_bps × Δt /
(seconds_per_year × 10000)⌋` (computed in 128-bit arithmetic with
truncation, in range under the stated bounds); and accrued interest never
decreases across the call. -/
theorem c9_interest_accrual (pos : Lending.Position) (now : Int)
    (hlo : -(2 ^ 63) ≤ now - pos.last_update) (hhi : now - pos.last_update ≤ 2 ^ 63 - 1)
    (hb : ∀ b ∈ pos.borrows,
      b.amount * Lending.rateForAsset b.asset_type * (now - pos.last_update).toNat < U128 ∧
      b.amount * Lending.rateForAsset b.asset_type * (now - pos.last_update).toNat /
        (Lending.seconds_per_year * BPS_DENOMINATOR) < U64 ∧
      b.accrued_interest + b.amount * Lending.rateForAsset b.asset_type *
        (now - pos.last_update).toNat /
        (Lending.seconds_per_year * BPS_DENOMINATOR) < U64) :
    (now - pos.last_update < 3600 → Lending.accrue_position_interest pos now = pos) ∧
    (3600 ≤ now - pos.last_update →
      (Lending.accrue_position_interest pos now).borrows =
        pos.borrows.map (claimedAccrual (now - pos.last_update).toNat) ∧
      (Lending.accrue_position_interest pos now).last_update = now) ∧
    List.Forall₂ (fun a b => a.accrued_interest ≤ b.accrued_interest)
      pos.borrows (Lending.accrue_position_interest pos now).borrows := by
  have hsat : i64SatSub now pos.last_update = now - pos.last_update := by
    unfold i64SatSub; omega
  refine ⟨?_, ?_, ?_⟩
  · intro hlt
    simp only [Lending.accrue_position_interest]
    rw [hsat, if_pos hlt]
  · intro hge
    simp only [Lending.accrue_position_interest]
    rw [hsat, if_neg (by omega)]
    refine ⟨?_, rfl⟩
    exact List.map_congr_left (fun b hmem =>
      accrueEntry_eq_claimed _ b (by omega) (hb b hmem).1 (hb b hmem).2.1 (hb b hmem).2.2)
  · simp only [Lending.accrue_position_interest]
    rw [hsat]
    split
    · exact List.forall₂_same.mpr (fun b _ => Nat.le_refl _)
    · rw [List.forall₂_map_right_iff]
      refine List.forall₂_same.mpr (fun b hmem => ?_)
      exact accrueEntry_mono _ b
        (Nat.lt_of_le_of_lt (Nat.le_add_right _ _) (hb b hmem).2.2)

/-- C9 witness: a $1000 (6-decimal) USDC principal accrued over exactly one
year (31 557 600 s) at 800 bps gains $80 of interest; and an elapsed time of
120 s is a no-op. -/
theorem c9_interest_accrual_witness :
    (3600 ≤ (31557600 : Int) - 0) ∧
    (Lending.accrue_position_interest
        (⟨[], [⟨AssetType.USDC, 1000000000, 0⟩], 0, 0, true, 0, ⟨0, 0, 0, 0⟩⟩ :
          Lending.Position) 31557600).borrows =
      [(⟨AssetType.USDC, 1000000000, 80000000⟩ : Lending.BorrowedAmount)] ∧
    Lending.accrue_position_interest
        (⟨[], [⟨AssetType.USDC, 1000000000, 0⟩], 120, 0, true, 0, ⟨0, 0, 0, 0⟩⟩ :
          Lending.Position) 180 =
      (⟨[], [⟨AssetType.USDC, 1000000000, 0⟩], 120, 0, true, 0, ⟨0, 0, 0, 0⟩⟩ :
          Lending.Position) := by
  refine ⟨by decide, ?_, ?_⟩
  · have h := (c9_interest_accrual
      (⟨[], [⟨AssetType.USDC, 1000000000, 0⟩], 0, 0, true, 0, ⟨0, 0, 0, 0⟩⟩ :
        Lending.Position) 31557600 (by decide) (by decide)
      (by
        intro b hmem
        rw [List.mem_singleton] at hmem
        subst hmem
        refine ⟨by decide, by decide, by decide⟩)).2.1 (by decide)
    rw [h.1]
    rfl
  · exact (c9_interest_accrual
      (⟨[], [⟨AssetType.USDC, 1000000000, 0⟩], 120, 0, true, 0, ⟨0, 0, 0, 0⟩⟩ :
        Lending.Position) 180 (by decide) (by decide)
      (by
        intro b hmem
        rw [List.mem_singleton] at hmem
        subst hmem
        refine ⟨by decide, by decide, by decide⟩)).1 (by decide)

-- ======================== C4 ========================

/-- The reputation LTV bonus never exceeds 500 bps. -/
theorem ltvBonusOfScore_le (s : Nat) : ltvBonusOfScore s ≤ 500 := by
  unfold ltvBonusOfScore; split_ifs <;> omega

/-- The borrow-entry update loop succeeds when the matched entry's new
principal stays in u64 range, and reports whether a match was found. -/
theorem borrowUpdateLoop_ok (asset : AssetType) (amount : Nat)
    (bs : List Lending.BorrowedAmount)
    (h : ∀ e ∈ bs, e.asset_type = asset → e.amount + amount < U64) :
    ∃ r, Lending.borrowUpdateLoop asset amount bs = Except.ok r ∧
      (r.2 = true ↔ ∃ e ∈ bs, e.asset_type = asset) := by
  induction bs with
  | nil => exact ⟨([], false), rfl, by simp⟩
  | cons b rest ih =>
    by_cases hb : b.asset_type = asset
    · have hlt : b.amount + amount < U64 := h b (List.mem_cons_self b rest) hb
      refine ⟨({ b with amount := b.amount + amount } :: rest, true), ?_, ?_⟩
      · simp only [Lending.borrowUpdateLoop, if_pos hb]
        rw [show checkedAdd64 b.amount amount = some (b.amount + amount) from by
          unfold checkedAdd64; rw [if_pos hlt]]
      · simp only [true_iff]
        exact ⟨b, List.mem_cons_self b rest, hb⟩
    · obtain ⟨⟨r1, r2⟩, hr, hiff⟩ := ih (fun e he ha => h e (List.mem_cons_of_mem b he) ha)
      refine ⟨(b :: r1, r2), ?_, ?_⟩
      · simp only [Lending.borrowUpdateLoop, if_neg hb]
        rw [hr]
      · simp only [hiff, List.mem_cons]
        constructor
        · rintro ⟨e, he, ha⟩
          exact ⟨e, Or.inr he, ha⟩
        · rintro ⟨e, he | he, ha⟩
          · exact absurd ha (he ▸ hb)
          · exact ⟨e, he, ha⟩

/-- C4 (confirmed): with a positive amount, an active asset, sufficient pool
liquidity, room for the borrow entry, and all intermediate u64 arithmetic in
range, `borrow` succeeds exactly when `total_borrow_usd + amount ≤
total_collateral_usd × (7500 + reputation bonus) / 10000`, and fails with
`ExceedsLTV` otherwise. -/
theorem c4_borrow_ltv_gate (pos : Lending.Position) (cfg : Lending.Borrowable)
    (vault_amount : Nat) (feed : Lending.PriceFeed) (amount : Nat) (now : Int)
    (C B : Nat)
    (hamt : 0 < amount) (hact : cfg.is_active = true) (hliq : amount ≤ vault_amount)
    (hC : Lending.sumCollateralUsd feed.price_usd_6dec pos.collaterals 0 = Except.ok C)
    (hB : Lending.sumBorrowUsd pos.borrows 0 = Except.ok B)
    (hadd : B + amount < U64)
    (hmul : C * (DEFAULT_SOL_MAX_LTV_BPS + pos.reputation.get_ltv_bonus_bps) < U64)
    (hloop : ∀ e ∈ pos.borrows, e.asset_type = cfg.asset_type → e.amount + amount < U64)
    (hroom : pos.borrows.length < MAX_BORROW_TYPES ∨
      ∃ e ∈ pos.borrows, e.asset_type = cfg.asset_type) :
    ((Lending.borrow pos cfg vault_amount feed amount now).isOk = true ↔
      B + amount ≤
        C * (DEFAULT_SOL_MAX_LTV_BPS + pos.reputation.get_ltv_bonus_bps) / BPS_DENOMINATOR) ∧
    (C * (DEFAULT_SOL_MAX_LTV_BPS + pos.reputation.get_ltv_bonus_bps) / BPS_DENOMINATOR <
        B + amount →
      Lending.borrow pos cfg vault_amount feed amount now =
        Except.error LegasiError.ExceedsLTV) := by
  have hb5 : pos.reputation.get_ltv_bonus_bps ≤ 500 :=
    ltvBonusOfScore_le pos.reputation.get_score
  have hsa : satAdd64 DEFAULT_SOL_MAX_LTV_BPS pos.reputation.get_ltv_bonus_bps =
      DEFAULT_SOL_MAX_LTV_BPS + pos.reputation.get_ltv_bonus_bps := by
    apply satAdd64_eq
    have hd : DEFAULT_SOL_MAX_LTV_BPS = 7500 := rfl
    have hu : (8000 : Nat) < U64 := by decide
    omega
  have hca : checkedAdd64 B amount = some (B + amount) := by
    unfold checkedAdd64; rw [if_pos hadd]
  have hcm : checkedMul64 C (DEFAULT_SOL_MAX_LTV_BPS + pos.reputation.get_ltv_bonus_bps) =
      some (C * (DEFAULT_SOL_MAX_LTV_BPS + pos.reputation.get_ltv_bonus_bps)) := by
    unfold checkedMul64; rw [if_pos hmul]
  obtain ⟨⟨r1, r2⟩, hr, hiff⟩ := borrowUpdateLoop_ok cfg.asset_type amount pos.borrows hloop
  unfold Lending.borrow
  rw [if_neg (by omega), if_neg (by simp [hact]), if_neg (by omega)]
  simp only [hC, hB, hca, hsa, hcm, hr]
  constructor
  · split
    · next hgt =>
      rw [show (Except.error LegasiError.ExceedsLTV :
          Except LegasiError Lending.Position).isOk = false from rfl]
      simp only [Bool.false_eq_true, false_iff]
      omega
    · next hgt =>
      cases r2 with
      | true => exact ⟨fun _ => by omega, fun _ => rfl⟩
      | false =>
        have hnf : ¬∃ e ∈ pos.borrows, e.asset_type = cfg.asset_type := by
          intro hex
          simpa using hiff.mpr hex
        have hlen : pos.borrows.length < MAX_BORROW_TYPES := hroom.resolve_right hnf
        rw [if_neg (by simp), if_pos hlen]
        exact ⟨fun _ => by omega, fun _ => rfl⟩
  · intro hgt
    rw [if_pos hgt]

/-- Position used in the C4 witness and the C6 divergence theorem: 10 SOL of
collateral, no borrows, fresh reputation. -/
def demoPosition : Lending.Position :=
  ⟨[⟨AssetType.SOL, 10000000000⟩], [], 0, 0, true, 0, ⟨0, 0, 0, 0⟩⟩

/-- Active USDC borrowable config. -/
def usdcConfig : Lending.Borrowable := ⟨true, AssetType.USDC⟩

/-- A $150/SOL price feed whose `last_update` is timestamp 0. -/
def solFeed150 : Lending.PriceFeed := ⟨150000000, 0, 0⟩

/-- C4 witness: the spec round-trip example.  10 SOL at $150 gives $1500 of
collateral; with the base 7500 bps LTV, borrowing $1125 (6-decimal
1125000000) succeeds and borrowing one unit more fails `ExceedsLTV`. -/
theorem c4_borrow_ltv_gate_witness :
    (Lending.sumCollateralUsd solFeed150.price_usd_6dec demoPosition.collaterals 0 =
      Except.ok 1500000000) ∧
    (Lending.borrow demoPosition usdcConfig 2000000000 solFeed150 1125000000 400).isOk =
      true ∧
    Lending.borrow demoPosition usdcConfig 2000000000 solFeed150 1125000001 400 =
      Except.error LegasiError.ExceedsLTV :=
  ⟨rfl,
   (c4_borrow_ltv_gate demoPosition usdcConfig 2000000000 solFeed150 1125000000 400
      1500000000 0 (by decide) rfl (by decide) rfl rfl (by decide) (by decide)
      (fun e he => absurd he (List.not_mem_nil e))
      (Or.inl (by decide))).1.mpr (by decide),
   (c4_borrow_ltv_gate demoPosition usdcConfig 2000000000 solFeed150 1125000001 400
      1500000000 0 (by decide) rfl (by decide) rfl rfl (by decide) (by decide)
      (fun e he => absurd he (List.not_mem_nil e))
      (Or.inl (by decide))).2 (by decide)⟩

-- ======================== C6 ========================

/-- C6 (code bug): the claim (and spec) require every collateral valuation to
reject a feed older than the staleness threshold, and `PRICE_STALENESS_
THRESHOLD = 300` exists in the constants, but `borrow` (like `withdraw_sol`
and `crank_gad`) never reads the feed's `last_update`: with a feed last
updated 400 s before `now` — past the 300 s threshold — `borrow` succeeds
instead of failing with a stale-price error.  Only `sync_pyth_price`
enforces staleness, with its tighter 60 s bound on the Pyth publish time. -/
theorem c6_staleness_never_checked :
    (Lending.borrow demoPosition usdcConfig 2000000000 solFeed150 1125000000 400).isOk =
      true ∧
    (400 : Int) - solFeed150.last_update > PRICE_STALENESS_THRESHOLD ∧
    Core.sync_pyth_price (⟨15000000000, 0, -8, 0⟩ : Core.PythPrice) solFeed150 61 =
      Except.error LegasiError.StalePriceFeed ∧
    (61 : Int) - (0 : Int) > MAX_PRICE_AGE := by
  refine ⟨rfl, by decide, rfl, by decide⟩

-- ======================== legasi-gad crank ========================

namespace Gad

/-- The SOL-only collateral valuation loop of `calculate_collateral_value`
(`legasi-gad/src/lib.rs` lines 330-348). -/
def collateralValueLoop (price : Nat) :
    List Lending.CollateralDeposit → Nat → Except LegasiError Nat
  | [], acc => Except.ok acc
  | d :: rest, acc =>
    match d.asset_type with
    | AssetType.SOL =>
      match checkedMul128 d.amount price with
      | none => Except.error LegasiError.MathOverflow
      | some p1 =>
        match checkedAdd64 acc (u64Mod (p1 / LAMPORTS_PER_SOL)) with
        | none => Except.error LegasiError.MathOverflow
        | some acc2 => collateralValueLoop price rest acc2
    | _ => collateralValueLoop price rest acc

/-- `calculate_collateral_value` from `legasi-gad/src/lib.rs`. -/
def calculate_collateral_value (pos : Lending.Position)
    (sol_price_feed : Lending.PriceFeed) : Except LegasiError Nat :=
  collateralValueLoop sol_price_feed.price_usd_6dec pos.collaterals 0

/-- The USDC/EURC borrow valuation loop of `calculate_borrow_value`
(lines 350-364). -/
def borrowValueLoop : List Lending.BorrowedAmount → Nat → Except LegasiError Nat
  | [], acc => Except.ok acc
  | b :: rest, acc =>
    match b.asset_type with
    | AssetType.USDC | AssetType.EURC =>
      match checkedAdd64 b.amount b.accrued_interest with
      | none => Except.error LegasiError.MathOverflow
      | some v =>
        match checkedAdd64 acc v with
        | none => Except.error LegasiError.MathOverflow
        | some acc2 => borrowValueLoop rest acc2
    | _ => borrowValueLoop rest acc

/-- `calculate_borrow_value` from `legasi-gad/src/lib.rs`. -/
def calculate_borrow_value (pos : Lending.Position) : Except LegasiError Nat :=
  borrowValueLoop pos.borrows 0

/-- The find of the SOL collateral entry (lines 103-105). -/
def findSolAmount : List Lending.CollateralDeposit → Option Nat
  | [] => none
  | c :: rest =>
    if c.asset_type = AssetType.SOL then some c.amount else findSolAmount rest

/-- The SOL-collateral reduction (lines 175-177), saturating. -/
def reduceSolCollateral (deduct : Nat) :
    List Lending.CollateralDeposit → List Lending.CollateralDeposit
  | [] => []
  | c :: rest =>
    if c.asset_type = AssetType.SOL then { c with amount := c.amount - deduct } :: rest
    else c :: reduceSolCollateral deduct rest

/-- The proportional debt-reduction loop (lines 180-196): interest first,
then principal, across entries until the reduction is exhausted. -/
def reduceDebtLoop (remaining : Nat) :
    List Lending.BorrowedAmount → List Lending.BorrowedAmount
  | [] => []
  | b :: rest =>
    if remaining = 0 then b :: rest
    else
      let borrow_total :=
        if b.amount + b.accrued_interest < U64 then b.amount + b.accrued_interest else 0
      let reduction := min remaining borrow_total
      let interest_reduction := min reduction b.accrued_interest
      { b with accrued_interest := b.accrued_interest - interest_reduction,
               amount := b.amount - (reduction - interest_reduction) } ::
        reduceDebtLoop (remaining - reduction) rest

/-- The retain predicate for collateral entries (line 205). -/
def keepCollateral (c : Lending.CollateralDeposit) : Bool := decide (0 < c.amount)

/-- Result of a successful `crank_gad`: the updated position plus the
quantities of the emitted `GadExecuted` event. -/
structure GadResult where
  position : Lending.Position
  collateral_liquidated_usd : Nat
  debt_reduced_usd : Nat
  ltv_before_bps : Nat
  ltv_after_bps : Nat
  gad_rate_bps : Nat
  cranker_reward : Nat
  deriving DecidableEq

/-- `crank_gad` from `legasi-gad/src/lib.rs` (lines 55-237).  The custody
transfers are pure balance moves and are not part of the position state. -/
def crank_gad (pos : Lending.Position) (sol_price_feed : Lending.PriceFeed)
    (now : Int) : Except LegasiError GadResult :=
  if pos.gad_enabled = false then Except.error LegasiError.GadDisabled
  else if pos.borrows.isEmpty then Except.error LegasiError.NoDebtToDeleverage
  else
    let elapsed := i64SatSub now pos.last_gad_crank
    if elapsed < MIN_GAD_CRANK_INTERVAL then Except.error LegasiError.CrankTooSoon
    else
      match calculate_collateral_value pos sol_price_feed with
      | Except.error e => Except.error e
      | Except.ok total_collateral_usd =>
        if total_collateral_usd = 0 then Except.error LegasiError.InsufficientCollateral
        else
          match calculate_borrow_value pos with
          | Except.error e => Except.error e
          | Except.ok total_borrow_usd =>
            match checkedMul64 total_borrow_usd BPS_DENOMINATOR with
            | none => Except.error LegasiError.MathOverflow
            | some num =>
              let current_ltv_bps := num / total_collateral_usd
              if current_ltv_bps ≤ DEFAULT_SOL_MAX_LTV_BPS then
                Except.error LegasiError.LtvBelowGadThreshold
              else
                let gad_rate_bps := get_gad_rate_bps current_ltv_bps DEFAULT_SOL_MAX_LTV_BPS
                if gad_rate_bps = 0 then Except.error LegasiError.NothingToLiquidate
                else
                  match checkedMul128 elapsed.toNat BPS_DENOMINATOR with
                  | none => Except.error LegasiError.MathOverflow
                  | some tf0 =>
                    let time_fraction := u64Mod (tf0 / SECONDS_PER_DAY)
                    match checkedMul128 gad_rate_bps time_fraction with
                    | none => Except.error LegasiError.MathOverflow
                    | some lf0 =>
                      let liquidate_fraction_bps := u64Mod (lf0 / BPS_DENOMINATOR)
                      match findSolAmount pos.collaterals with
                      | none => Except.error LegasiError.InsufficientCollateral
                      | some sol_amount =>
                        match checkedMul128 sol_amount liquidate_fraction_bps with
                        | none => Except.error LegasiError.MathOverflow
                        | some sl0 =>
                          let sol_to_liquidate := u64Mod (sl0 / BPS_DENOMINATOR)
                          if sol_to_liquidate = 0 then
                            Except.error LegasiError.NothingToLiquidate
                          else
                            match checkedMul128 sol_to_liquidate
                                sol_price_feed.price_usd_6dec with
                            | none => Except.error LegasiError.MathOverflow
                            | some lu0 =>
                              let liquidated_usd := u64Mod (lu0 / LAMPORTS_PER_SOL)
                              let debt_reduction := min liquidated_usd total_borrow_usd
                              match checkedMul64 sol_to_liquidate CRANKER_REWARD_BPS with
                              | none => Except.error LegasiError.MathOverflow
                              | some cr0 =>
                                let cranker_reward := cr0 / BPS_DENOMINATOR
                                match checkedAdd64 sol_to_liquidate cranker_reward with
                                | none => Except.error LegasiError.MathOverflow
                                | some total_sol_deducted =>
                                  let new_collateral_usd :=
                                    total_collateral_usd - liquidated_usd
                                  let new_borrow_usd := total_borrow_usd - debt_reduction
                                  let ltv_after_bps :=
                                    if 0 < new_collateral_usd then
                                      mulOrZero64 new_borrow_usd BPS_DENOMINATOR /
                                        new_collateral_usd
                                    else 0
                                  Except.ok {
                                    position := { pos with
                                      collaterals :=
                                        (reduceSolCollateral total_sol_deducted
                                          pos.collaterals).filter keepCollateral,
                                      borrows :=
                                        (reduceDebtLoop debt_reduction
                                          pos.borrows).filter Lending.keepBorrow,
                                      last_gad_crank := now,
                                      total_gad_liquidated_usd :=
                                        satAdd64 pos.total_gad_liquidated_usd liquidated_usd,
                                      reputation := { pos.reputation with
                                        gad_events := satAdd32 pos.reputation.gad_events 1 },
                                      last_update := now },
                                    collateral_liquidated_usd := liquidated_usd,
                                    debt_reduced_usd := debt_reduction,
                                    ltv_before_bps := current_ltv_bps,
                                    ltv_after_bps := ltv_after_bps,
                                    gad_rate_bps := gad_rate_bps,
                                    cranker_reward := cranker_reward }

/-- The LTV computation of lines 70-83 as a standalone reading of a position
state: `total_borrow_usd × 10000 / total_collateral_usd`. -/
def positionLtvBps (pos : Lending.Position) (sol_price_feed : Lending.PriceFeed) :
    Except LegasiError Nat :=
  match calculate_collateral_value pos sol_price_feed with
  | Except.error e => Except.error e
  | Except.ok c =>
    if c = 0 then Except.error LegasiError.InsufficientCollateral
    else
      match calculate_borrow_value pos with
      | Except.error e => Except.error e
      | Except.ok b =>
        match checkedMul64 b BPS_DENOMINATOR with
        | none => Except.error LegasiError.MathOverflow
        | some n => Except.ok (n / c)

end Gad

-- ======================== C2 ========================

/-- Unpack a successful u64 `checked_mul`. -/
theorem checkedMul64_some {a b c : Nat} (h : checkedMul64 a b = some c) :
    c = a * b := by
  unfold checkedMul64 at h
  split at h
  · exact (Option.some.injEq _ _ ▸ h).symm
  · exact absurd h (by simp)

/-- Floor division is monotone under cross multiplication. -/
theorem div_le_div_cross (x m y n : Nat) (hm : 0 < m) (hn : 0 < n)
    (h : x * n ≤ y * m) : x / m ≤ y / n := by
  rw [Nat.le_div_iff_mul_le hn]
  have h1 : x / m * n * m ≤ x * n := by
    have h2 : x / m * m ≤ x := Nat.div_mul_le_self x m
    calc x / m * n * m = x / m * m * n := by ring
      _ ≤ x * n := Nat.mul_le_mul_right n h2
  exact Nat.le_of_mul_le_mul_right (le_trans h1 h) hm

/-- Core arithmetic of the amended C2: when the pre-crank borrow value does
not exceed the collateral value, removing the liquidated USD from the
collateral total and `min(liquidated, borrow)` from the borrow total cannot
raise the reported LTV. -/
theorem ltv_after_le_before (B C L red : Nat) (hC : 0 < C) (hBC : B ≤ C)
    (hred : red = min L B) :
    (if 0 < C - L then mulOrZero64 (B - red) BPS_DENOMINATOR / (C - L) else 0) ≤
      B * BPS_DENOMINATOR / C := by
  split
  · next hCL =>
    have hBL : B - red = B - L := by omega
    rw [hBL]
    unfold mulOrZero64
    split
    · next hfit =>
      rcases Nat.le_total B L with hc | hc
      · rw [Nat.sub_eq_zero_of_le hc, Nat.zero_mul, Nat.zero_div]
        exact Nat.zero_le _
      · apply div_le_div_cross _ _ _ _ (by omega) hC
        have hLB : L * B ≤ L * C := Nat.mul_le_mul_left L hBC
        have key : (B - L) * C ≤ B * (C - L) := by
          have e1 : (B - L) * C = B * C - L * C := Nat.sub_mul B L C
          have e2 : B * (C - L) = C * B - L * B := by
            rw [mul_comm B (C - L), Nat.sub_mul]
          rw [e1, e2, mul_comm B C]
          exact Nat.sub_le_sub_left (by omega) (C * B)
        calc (B - L) * BPS_DENOMINATOR * C = (B - L) * C * BPS_DENOMINATOR := by ring
          _ ≤ B * (C - L) * BPS_DENOMINATOR := Nat.mul_le_mul_right _ key
          _ = B * BPS_DENOMINATOR * (C - L) := by ring
    · next =>
      rw [Nat.zero_div]
      exact Nat.zero_le _
  · exact Nat.zero_le _

/-- C2 (amended): for every successful `crank_gad` whose pre-crank total
borrow USD does not exceed the total collateral USD, the post-crank LTV that
the crank itself computes and reports (new borrow USD × 10000 / new
collateral USD over the USD totals reduced by the liquidated value and the
debt reduction) is at most the pre-crank LTV; and the rate function is 0
whenever `current_ltv_bps ≤ max_ltv_bps`, so cranking halts at or below the
max.  (The claimed strict decrease for *all* LTVs above max is false: see the
counterexample, an underwater position whose LTV rises.) -/
theorem c2_gad_reported_ltv_monotone (pos : Lending.Position)
    (feed : Lending.PriceFeed) (now : Int) (r : Gad.GadResult) (B C : Nat)
    (hok : Gad.crank_gad pos feed now = Except.ok r)
    (hB : Gad.calculate_borrow_value pos = Except.ok B)
    (hC : Gad.calculate_collateral_value pos feed = Except.ok C)
    (hBC : B ≤ C) :
    r.ltv_after_bps ≤ r.ltv_before_bps ∧
    (∀ v m : Nat, v ≤ m → Gad.get_gad_rate_bps v m = 0) := by
  refine ⟨?_, fun v m hvm => by unfold Gad.get_gad_rate_bps; rw [if_pos hvm]⟩
  unfold Gad.crank_gad at hok
  rcases hmm : checkedMul64 B BPS_DENOMINATOR with _ | num
  · simp only [hB, hC, hmm] at hok
    iterate 4
      split at hok
      case _ => exact absurd hok (by simp)
    exact absurd hok (by simp)
  · simp only [hB, hC, hmm] at hok
    iterate 14
      split at hok
      case _ => exact absurd hok (by simp)
    injection hok with hok
    subst hok
    dsimp only
    rw [checkedMul64_some hmm]
    exact ltv_after_le_before B C _ _ (by omega) hBC rfl

/-- An underwater position: 10000 lamports of SOL collateral worth 10000
micro-USD at the given price, with 20000 micro-USD of USDC debt (LTV 20000
bps). -/
def underwaterPos : Lending.Position :=
  ⟨[⟨AssetType.SOL, 10000⟩], [⟨AssetType.USDC, 20000, 0⟩], 0, 0, true, 0, ⟨0, 0, 0, 0⟩⟩

/-- A $1000/SOL price feed. -/
def feed1000 : Lending.PriceFeed := ⟨1000000000, 0, 0⟩

/-- C2 counterexample: on the underwater position (LTV 20000 bps > max 7500)
the crank succeeds but the position's LTV recomputed from the post-crank
state is 21122 bps — strictly GREATER than the 20000 bps before, refuting
the claimed strict decrease for all starting LTVs above max. -/
theorem c2_underwater_ltv_increases_counterexample :
    Gad.positionLtvBps underwaterPos feed1000 = Except.ok 20000 ∧
    (Gad.crank_gad underwaterPos feed1000 86400).bind
      (fun r => Gad.positionLtvBps r.position feed1000) = Except.ok 21122 ∧
    ¬(21122 < 20000) :=
  ⟨rfl, rfl, by decide⟩

/-- A position with LTV 9000 bps (not underwater) used as the C2 witness. -/
def gadDemoPos : Lending.Position :=
  ⟨[⟨AssetType.SOL, 10000⟩], [⟨AssetType.USDC, 9000, 0⟩], 0, 0, true, 0, ⟨0, 0, 0, 0⟩⟩

/-- The crank result on `gadDemoPos` at price $1000 and `now = 86400`. -/
def gadDemoResult : Gad.GadResult :=
  ⟨⟨[⟨AssetType.SOL, 8995⟩], [⟨AssetType.USDC, 8000, 0⟩], 86400, 86400, true, 1000,
    ⟨0, 0, 1, 0⟩⟩, 1000, 1000, 9000, 8888, 1000, 5⟩

/-- C2 amended witness: a successful crank on a position with borrow value
9000 ≤ collateral value 10000 reports LTV going from 9000 bps down to
8888 bps. -/
theorem c2_gad_reported_ltv_monotone_witness :
    Gad.crank_gad gadDemoPos feed1000 86400 = Except.ok gadDemoResult ∧
    Gad.calculate_borrow_value gadDemoPos = Except.ok 9000 ∧
    Gad.calculate_collateral_value gadDemoPos feed1000 = Except.ok 10000 ∧
    (9000 ≤ 10000) ∧
    gadDemoResult.ltv_after_bps ≤ gadDemoResult.ltv_before_bps :=
  ⟨rfl, rfl, rfl, by decide,
   (c2_gad_reported_ltv_monotone gadDemoPos feed1000 86400 gadDemoResult 9000 10000
      rfl rfl rfl (by decide)).1⟩

-- ======================== legasi-credit crank (C1) ========================

namespace Credit

/-- Error codes of `legasi-credit/src/lib.rs` (the subset `crank_gad`
uses). -/
inductive ErrorCode where
  | InvalidAmount
  | MathOverflow
  | GadDisabled
  | NoDebtToDeleverage
  | NoCollateral
  | LtvBelowGadThreshold
  | CrankTooSoon
  | NothingToLiquidate
  deriving DecidableEq

/-- Per-position GAD configuration (`legasi-credit/src/lib.rs` lines
1599-1610). -/
structure GadConfig where
  enabled : Bool
  custom_start_ltv_bps : Nat
  min_collateral_floor : Nat
  deriving DecidableEq

/-- Reputation record of the credit program (lines 1612-1618). -/
structure Reputation where
  successful_repayments : Nat
  total_repaid : Nat
  gad_events : Nat
  account_created : Int
  deriving DecidableEq

/-- Single-collateral position of the credit program (lines 1568-1583; owner
pubkey and bump omitted). -/
structure Position where
  collateral_amount : Nat
  staked_amount : Nat
  last_stake_update : Int
  accumulated_yield : Nat
  borrowed_amount : Nat
  last_update : Int
  last_gad_crank : Int
  gad_config : GadConfig
  total_gad_liquidated : Nat
  reputation : Reputation
  deriving DecidableEq

/-- `get_gad_rate_bps` of the credit program (lines 22-31): identical
quadratic curve, parameterised by the position's start LTV. -/
def get_gad_rate_bps (ltv_bps start_ltv_bps : Nat) : Nat :=
  if ltv_bps ≤ start_ltv_bps then 0
  else
    let excess := ltv_bps - start_ltv_bps
    let rate := u64Mod (excess ^ 2 / 100)
    min rate 1000

/-- `crank_gad` of the credit program (lines 1121-1227).  The liquidation is
capped at `collateral_amount − min_collateral_floor`, but the cranker reward
(`actual_liq / 200`) is deducted in addition to the capped amount. -/
def crank_gad (pos : Position) (sol_price_usd_6dec : Nat) (now : Int) :
    Except ErrorCode Position :=
  if pos.gad_config.enabled = false then Except.error ErrorCode.GadDisabled
  else if pos.borrowed_amount = 0 then Except.error ErrorCode.NoDebtToDeleverage
  else
    match checkedMul128 pos.collateral_amount sol_price_usd_6dec with
    | none => Except.error ErrorCode.MathOverflow
    | some cv0 =>
      let collateral_value := cv0 / 1000000000
      if collateral_value = 0 then Except.error ErrorCode.NoCollateral
      else
        match checkedMul128 pos.borrowed_amount 10000 with
        | none => Except.error ErrorCode.MathOverflow
        | some lv0 =>
          let current_ltv := u64Mod (lv0 / collateral_value)
          if current_ltv ≤ pos.gad_config.custom_start_ltv_bps then
            Except.error ErrorCode.LtvBelowGadThreshold
          else
            match i64CheckedSub now pos.last_gad_crank with
            | none => Except.error ErrorCode.MathOverflow
            | some elapsed =>
              if elapsed < 3600 then Except.error ErrorCode.CrankTooSoon
              else
                let gad_rate := get_gad_rate_bps current_ltv
                  pos.gad_config.custom_start_ltv_bps
                match checkedMul128 pos.collateral_amount gad_rate with
                | none => Except.error ErrorCode.MathOverflow
                | some la0 =>
                  match checkedMul128 la0 elapsed.toNat with
                  | none => Except.error ErrorCode.MathOverflow
                  | some la1 =>
                    let liquidate_amount := u64Mod (la1 / 10000 / 86400)
                    let max_liq :=
                      pos.collateral_amount - pos.gad_config.min_collateral_floor
                    let actual_liq := min liquidate_amount max_liq
                    if actual_liq = 0 then Except.error ErrorCode.NothingToLiquidate
                    else
                      match checkedMul128 actual_liq sol_price_usd_6dec with
                      | none => Except.error ErrorCode.MathOverflow
                      | some uv0 =>
                        let usdc_value := u64Mod (uv0 / 1000000000)
                        let debt_reduction := min usdc_value pos.borrowed_amount
                        let crank_reward := actual_liq / 200
                        match checkedAdd64 actual_liq crank_reward with
                        | none => Except.error ErrorCode.MathOverflow
                        | some total_deduct =>
                          Except.ok { pos with
                            collateral_amount := pos.collateral_amount - total_deduct,
                            borrowed_amount := pos.borrowed_amount - debt_reduction,
                            last_gad_crank := now,
                            total_gad_liquidated :=
                              satAdd64 pos.total_gad_liquidated actual_liq,
                            last_update := now,
                            reputation := { pos.reputation with
                              gad_events := satAdd32 pos.reputation.gad_events 1 } }

end Credit

-- ======================== C1 ========================

/-- C1 failing input: 10000 lamports of collateral, a floor of 9790, 9000
micro-USD of debt at a $1000 SOL price, cranked one day after the last
crank. -/
def floorBreachPos : Credit.Position :=
  ⟨10000, 0, 0, 0, 9000, 0, 0, ⟨true, 5000, 9790⟩, 0, ⟨0, 0, 0, 0⟩⟩

/-- C1 (code bug): the claim — and spec §8's GAD floor invariant — say the
collateral never drops below `min_collateral_floor` after a crank.  The code
caps `actual_liq` at `collateral_amount − min_collateral_floor` (here 210)
and correctly fails `NothingToLiquidate` when that cap is zero, but it then
deducts `actual_liq + crank_reward` where `crank_reward = actual_liq / 200`;
on this input the position ends with 10000 − 211 = 9789 < 9790 lamports,
breaching the user's floor. -/
theorem c1_floor_breach :
    (Credit.crank_gad floorBreachPos 1000000000 86400).map
      (fun st => st.collateral_amount) = Except.ok 9789 ∧
    floorBreachPos.gad_config.min_collateral_floor = 9790 ∧
    (9789 < 9790) :=
  ⟨rfl, rfl, by decide⟩

-- ======================== legasi-lp (C7, C10) ========================

namespace Lp

/-- LP pool state (`legasi-core/src/state.rs` `LpPool`). -/
structure LpPool where
  total_deposits : Nat
  total_shares : Nat
  total_borrowed : Nat
  interest_earned : Nat
  deriving DecidableEq

/-- Pool plus the protocol insurance fund `accrue_interest` writes to. -/
structure LpState where
  pool : LpPool
  insurance_fund : Nat
  deriving DecidableEq

/-- `deposit` from `legasi-lp/src/lib.rs` (lines 39-114): first deposit
mints 1:1, otherwise `amount × total_shares / total_deposits` (u128 mul,
`checked_div` failing on an empty-deposit pool, truncating `as u64` cast);
zero computed shares are rejected with `InvalidAmount` before the token
transfer and the pool update. -/
def deposit (st : LpState) (amount : Nat) : Except LegasiError LpState :=
  if amount = 0 then Except.error LegasiError.InvalidAmount
  else
    match (if st.pool.total_shares = 0 then some amount
           else if st.pool.total_deposits = 0 then none
           else some (u64Mod (amount * st.pool.total_shares / st.pool.total_deposits))) with
    | none => Except.error LegasiError.MathOverflow
    | some shares_to_mint =>
      if shares_to_mint = 0 then Except.error LegasiError.InvalidAmount
      else
        match checkedAdd64 st.pool.total_deposits amount with
        | none => Except.error LegasiError.MathOverflow
        | some d =>
          match checkedAdd64 st.pool.total_shares shares_to_mint with
          | none => Except.error LegasiError.MathOverflow
          | some s =>
            Except.ok { st with pool :=
              { st.pool with total_deposits := d, total_shares := s } }

/-- `withdraw` from `legasi-lp/src/lib.rs` (lines 117-186):
`shares × total_deposits / total_shares` tokens returned, truncating;
pool totals reduced saturating. -/
def withdraw (st : LpState) (shares_amount vault_amount : Nat) :
    Except LegasiError LpState :=
  if shares_amount = 0 then Except.error LegasiError.InvalidAmount
  else if st.pool.total_shares = 0 then Except.error LegasiError.NoLpShares
  else
    let tokens_to_return :=
      u64Mod (shares_amount * st.pool.total_deposits / st.pool.total_shares)
    if tokens_to_return = 0 then Except.error LegasiError.InvalidAmount
    else if vault_amount < tokens_to_return then
      Except.error LegasiError.InsufficientLiquidity
    else
      Except.ok { st with pool := { st.pool with
        total_deposits := st.pool.total_deposits - tokens_to_return,
        total_shares := st.pool.total_shares - shares_amount } }

/-- `accrue_interest` from `legasi-lp/src/lib.rs` (lines 189-227): a 5%
insurance fee is skimmed, the rest is added to `total_deposits` (and
`interest_earned`) without minting shares. -/
def accrue_interest (st : LpState) (interest_amount : Nat) :
    Except LegasiError LpState :=
  if interest_amount = 0 then Except.error LegasiError.InvalidAmount
  else
    match checkedMul64 interest_amount INSURANCE_FEE_BPS with
    | none => Except.error LegasiError.MathOverflow
    | some f0 =>
      let insurance_fee := f0 / BPS_DENOMINATOR
      let lp_interest := interest_amount - insurance_fee
      match checkedAdd64 st.pool.total_deposits lp_interest with
      | none => Except.error LegasiError.MathOverflow
      | some d =>
        match checkedAdd64 st.pool.interest_earned lp_interest with
        | none => Except.error LegasiError.MathOverflow
        | some ie =>
          match checkedAdd64 st.insurance_fund insurance_fee with
          | none => Except.error LegasiError.MathOverflow
          | some f =>
            Except.ok
              { pool := { st.pool with total_deposits := d, interest_earned := ie },
                insurance_fund := f }

/-- One pool operation: a deposit, a withdrawal (with the vault balance seen
by its liquidity check), or an interest accrual. -/
inductive LpOp where
  | deposit (amount : Nat)
  | withdraw (shares_amount vault_amount : Nat)
  | accrue (interest_amount : Nat)
  deriving DecidableEq

/-- All u64-typed inputs of an operation are in range. -/
def LpOp.wf : LpOp → Prop
  | LpOp.deposit a => a < U64
  | LpOp.withdraw w v => w < U64 ∧ v < U64
  | LpOp.accrue i => i < U64

/-- A failed operation leaves the state unchanged (the transaction aborts
with no partial mutation). -/
def lpStep (st : LpState) (op : LpOp) : LpState :=
  match op with
  | LpOp.deposit a =>
    match deposit st a with
    | Except.ok st2 => st2
    | Except.error _ => st
  | LpOp.withdraw w v =>
    match withdraw st w v with
    | Except.ok st2 => st2
    | Except.error _ => st
  | LpOp.accrue i =>
    match accrue_interest st i with
    | Except.ok st2 => st2
    | Except.error _ => st

/-- Run a sequence of operations from the empty pool. -/
def lpRun (ops : List LpOp) : LpState :=
  ops.foldl lpStep ⟨⟨0, 0, 0, 0⟩, 0⟩

/-- Invariant: shares never exceed deposits (share price ≥ 1) and deposits
stay in u64 range. -/
def lpInv (st : LpState) : Prop :=
  st.pool.total_shares ≤ st.pool.total_deposits ∧ st.pool.total_deposits < U64

end Lp

namespace Lp

/-- Every successful or failed pool operation preserves the pool invariant,
and never lowers the share price `total_deposits / total_shares` (stated by
cross-multiplication) between states with nonzero shares. -/
theorem lpStep_inv_price (st : LpState) (op : LpOp) (hst : lpInv st) (hop : op.wf) :
    lpInv (lpStep st op) ∧
    (0 < st.pool.total_shares → 0 < (lpStep st op).pool.total_shares →
      st.pool.total_deposits * (lpStep st op).pool.total_shares ≤
        (lpStep st op).pool.total_deposits * st.pool.total_shares) := by
  obtain ⟨hsd, hdU⟩ := hst
  cases op with
  | deposit a =>
    simp only [lpStep]
    split
    · next st2 heq =>
      unfold deposit at heq
      split at heq
      · exact absurd heq (by simp)
      split at heq
      · exact absurd heq (by simp)
      next m hsome =>
      split at heq
      · exact absurd heq (by simp)
      next hm0 =>
      split at heq
      · exact absurd heq (by simp)
      next d2 hd2 =>
      split at heq
      · exact absurd heq (by simp)
      next s2 hs2 =>
      injection heq with heq
      subst heq
      have hd2e : d2 = st.pool.total_deposits + a ∧
          st.pool.total_deposits + a < U64 := by
        unfold checkedAdd64 at hd2
        split at hd2 <;> simp_all
      have hs2e : s2 = st.pool.total_shares + m := by
        unfold checkedAdd64 at hs2
        split at hs2 <;> simp_all
      by_cases hs0 : st.pool.total_shares = 0
      · rw [if_pos hs0] at hsome
        injection hsome with hsome
        subst hsome
        refine ⟨⟨?_, ?_⟩, ?_⟩
        · dsimp only
          omega
        · dsimp only
          omega
        · intro h0
          exact absurd h0 (by omega)
      · rw [if_neg hs0] at hsome
        rw [if_neg (by omega)] at hsome
        injection hsome with hsome
        have hds : 0 < st.pool.total_deposits := by omega
        have hma : m ≤ a := by
          have h1 : a * st.pool.total_shares / st.pool.total_deposits ≤ a := by
            have h2 : a * st.pool.total_shares ≤ a * st.pool.total_deposits :=
              Nat.mul_le_mul_left a hsd
            calc a * st.pool.total_shares / st.pool.total_deposits
                ≤ a * st.pool.total_deposits / st.pool.total_deposits :=
                  Nat.div_le_div_right h2
              _ = a := Nat.mul_div_cancel a hds
          calc m = u64Mod (a * st.pool.total_shares / st.pool.total_deposits) :=
              hsome.symm
            _ ≤ a * st.pool.total_shares / st.pool.total_deposits := Nat.mod_le _ _
            _ ≤ a := h1
        have hdm : st.pool.total_deposits * m ≤ a * st.pool.total_shares := by
          have h1 : m ≤ a * st.pool.total_shares / st.pool.total_deposits := by
            rw [← hsome]
            exact Nat.mod_le _ _
          calc st.pool.total_deposits * m
              ≤ st.pool.total_deposits *
                (a * st.pool.total_shares / st.pool.total_deposits) :=
                Nat.mul_le_mul_left _ h1
            _ ≤ a * st.pool.total_shares := Nat.mul_div_le _ _
        refine ⟨⟨?_, ?_⟩, ?_⟩
        · dsimp only
          omega
        · dsimp only
          omega
        · intro h0 h0b
          dsimp only
          rw [hd2e.1, hs2e]
          calc st.pool.total_deposits * (st.pool.total_shares + m) =
              st.pool.total_deposits * st.pool.total_shares +
                st.pool.total_deposits * m := by ring
            _ ≤ st.pool.total_deposits * st.pool.total_shares +
                a * st.pool.total_shares :=
              Nat.add_le_add_left hdm _
            _ = (st.pool.total_deposits + a) * st.pool.total_shares := by ring
    · next => exact ⟨⟨hsd, hdU⟩, fun _ _ => Nat.le_refl _⟩
  | withdraw w v =>
    simp only [lpStep]
    split
    · next st2 heq =>
      unfold withdraw at heq
      dsimp only at heq
      split at heq
      · exact absurd heq (by simp)
      split at heq
      · exact absurd heq (by simp)
      next hs0 =>
      split at heq
      · exact absurd heq (by simp)
      next ht0 =>
      split at heq
      · exact absurd heq (by simp)
      next hv =>
      injection heq with heq
      subst heq
      dsimp only
      set t := u64Mod (w * st.pool.total_deposits / st.pool.total_shares) with hts
      have hspos : 0 < st.pool.total_shares := by omega
      have hts2 : t * st.pool.total_shares ≤ w * st.pool.total_deposits := by
        have h1 : t ≤ w * st.pool.total_deposits / st.pool.total_shares :=
          Nat.mod_le _ _
        calc t * st.pool.total_shares
            ≤ w * st.pool.total_deposits / st.pool.total_shares *
              st.pool.total_shares := Nat.mul_le_mul_right _ h1
          _ ≤ w * st.pool.total_deposits := Nat.div_mul_le_self _ _
      have hprice : st.pool.total_deposits * (st.pool.total_shares - w) ≤
          (st.pool.total_deposits - t) * st.pool.total_shares := by
        rw [Nat.mul_comm st.pool.total_deposits (st.pool.total_shares - w),
          Nat.sub_mul, Nat.sub_mul,
          Nat.mul_comm st.pool.total_shares st.pool.total_deposits]
        exact Nat.sub_le_sub_left hts2 _

      have hinv : st.pool.total_shares - w ≤ st.pool.total_deposits - t := by
        have h1 : st.pool.total_shares * (st.pool.total_shares - w) ≤
            st.pool.total_deposits * (st.pool.total_shares - w) :=
          Nat.mul_le_mul_right _ hsd
        have h2 : (st.pool.total_shares - w) * st.pool.total_shares ≤
            (st.pool.total_deposits - t) * st.pool.total_shares := by
          rw [Nat.mul_comm]
          exact le_trans h1 hprice
        exact Nat.le_of_mul_le_mul_right h2 hspos
      exact ⟨⟨hinv, lt_of_le_of_lt (Nat.sub_le _ _) hdU⟩, fun _ _ => hprice⟩
    · next => exact ⟨⟨hsd, hdU⟩, fun _ _ => Nat.le_refl _⟩
  | accrue i =>
    simp only [lpStep]
    split
    · next st2 heq =>
      unfold accrue_interest at heq
      dsimp only at heq
      split at heq
      · exact absurd heq (by simp)
      split at heq
      · exact absurd heq (by simp)
      next f0 hf0 =>
      split at heq
      · exact absurd heq (by simp)
      next d2 hd2 =>
      split at heq
      · exact absurd heq (by simp)
      next ie2 hie2 =>
      split at heq
      · exact absurd heq (by simp)
      next f2 hf2 =>
      injection heq with heq
      subst heq
      have hd2e : d2 = st.pool.total_deposits +
          (i - f0 / BPS_DENOMINATOR) ∧
          st.pool.total_deposits + (i - f0 / BPS_DENOMINATOR) < U64 := by
        unfold checkedAdd64 at hd2
        split at hd2 <;> simp_all
      refine ⟨⟨?_, ?_⟩, ?_⟩
      · dsimp only
        omega
      · dsimp only
        omega
      · intro h0 h0b
        dsimp only
        exact Nat.mul_le_mul_right _ (by omega)
    · next => exact ⟨⟨hsd, hdU⟩, fun _ _ => Nat.le_refl _⟩

/-- Any operation sequence from the empty pool reaches an invariant state. -/
theorem lpRun_inv (ops : List LpOp) (h : ∀ o ∈ ops, o.wf) : lpInv (lpRun ops) := by
  have hgen : ∀ (l : List LpOp) (st : LpState), (∀ o ∈ l, o.wf) → lpInv st →
      lpInv (l.foldl lpStep st) := by
    intro l
    induction l with
    | nil => exact fun st _ hst => hst
    | cons o os ih =>
      intro st hwf hst
      exact ih (lpStep st o) (fun x hx => hwf x (List.mem_cons_of_mem o hx))
        (lpStep_inv_price st o hst (hwf o (List.mem_cons_self o os))).1
  exact hgen ops ⟨⟨0, 0, 0, 0⟩, 0⟩ h ⟨Nat.le_refl 0, by decide⟩

end Lp

-- ======================== C7 ========================

/-- C7 (confirmed): for every sequence of pool deposits, withdrawals and
interest accruals starting from the empty pool (all operation inputs being
u64 values), the share price `total_deposits / total_shares` is
non-decreasing across each further operation, stated by cross-multiplication
between any two consecutive states with nonzero shares: deposits mint
`amount` shares on an empty pool and `⌊amount × shares / deposits⌋`
otherwise, withdrawals return `⌊shares × deposits / shares_total⌋` tokens,
and accrual adds to `total_deposits` without minting shares, so rounding
always favors the pool. -/
theorem c7_lp_share_price_monotone (ops : List Lp.LpOp) (op : Lp.LpOp)
    (hops : ∀ o ∈ ops, o.wf) (hop : op.wf)
    (h1 : 0 < (Lp.lpRun ops).pool.total_shares)
    (h2 : 0 < (Lp.lpStep (Lp.lpRun ops) op).pool.total_shares) :
    (Lp.lpRun ops).pool.total_deposits * (Lp.lpStep (Lp.lpRun ops) op).pool.total_shares ≤
      (Lp.lpStep (Lp.lpRun ops) op).pool.total_deposits *
        (Lp.lpRun ops).pool.total_shares :=
  (Lp.lpStep_inv_price (Lp.lpRun ops) op (Lp.lpRun_inv ops hops) hop).2 h1 h2

/-- C7 witness: after a deposit of 100 the pool is at price 1
(deposits 100 / shares 100); accruing 50 of interest (47.5 ⌊2⌋ insurance)
raises deposits to 148 with shares unchanged, so the price rose:
100 × 100 ≤ 148 × 100. -/
theorem c7_lp_share_price_monotone_witness :
    (0 < (Lp.lpRun [Lp.LpOp.deposit 100]).pool.total_shares) ∧
    (0 < (Lp.lpStep (Lp.lpRun [Lp.LpOp.deposit 100]) (Lp.LpOp.accrue 50)).pool.total_shares) ∧
    (Lp.lpRun [Lp.LpOp.deposit 100]).pool.total_deposits *
        (Lp.lpStep (Lp.lpRun [Lp.LpOp.deposit 100]) (Lp.LpOp.accrue 50)).pool.total_shares ≤
      (Lp.lpStep (Lp.lpRun [Lp.LpOp.deposit 100]) (Lp.LpOp.accrue 50)).pool.total_deposits *
        (Lp.lpRun [Lp.LpOp.deposit 100]).pool.total_shares :=
  ⟨by decide, by decide,
   c7_lp_share_price_monotone [Lp.LpOp.deposit 100] (Lp.LpOp.accrue 50)
     (by
       intro o ho
       rw [List.mem_singleton] at ho
       subst ho
       exact (by decide : (100 : Nat) < U64))
     (by exact (by decide : (50 : Nat) < U64)) (by decide) (by decide)⟩

-- ======================== C10 ========================

/-- C10 (confirmed): on a non-empty pool (`total_shares > 0`, and hence
`total_deposits > 0`), a deposit whose computed share amount
`⌊amount × total_shares / total_deposits⌋` truncates to zero fails with
`InvalidAmount`; in the source this `require!` precedes the token transfer
CPI and every pool-state write, so dust deposits are rejected rather than
absorbed. -/
theorem c10_dust_deposit_rejected (st : Lp.LpState) (amount : Nat)
    (hs : 0 < st.pool.total_shares) (hd : 0 < st.pool.total_deposits)
    (ha : 0 < amount)
    (hdust : amount * st.pool.total_shares / st.pool.total_deposits = 0) :
    Lp.deposit st amount = Except.error LegasiError.InvalidAmount := by
  unfold Lp.deposit
  rw [if_neg (by omega)]
  have hm : (if st.pool.total_shares = 0 then some amount
      else if st.pool.total_deposits = 0 then none
      else some (u64Mod (amount * st.pool.total_shares / st.pool.total_deposits))) =
      some 0 := by
    rw [if_neg (by omega), if_neg (by omega), hdust]
    rfl
  rw [hm]
  rfl

/-- C10 witness: pool with 2 deposits and 1 share; a deposit of 1 computes
`⌊1 × 1 / 2⌋ = 0` shares and is rejected with `InvalidAmount`. -/
theorem c10_dust_deposit_rejected_witness :
    (0 < (1 : Nat) ∧ 1 * 1 / 2 = 0) ∧
    Lp.deposit (⟨⟨2, 1, 0, 0⟩, 0⟩ : Lp.LpState) 1 =
      Except.error LegasiError.InvalidAmount :=
  ⟨⟨by decide, by decide⟩,
   c10_dust_deposit_rejected (⟨⟨2, 1, 0, 0⟩, 0⟩ : Lp.LpState) 1
     (by decide) (by decide) (by decide) (by decide)⟩
